import Mathlib

/-!
# MediTrack — schedule-to-dose generation and reminder lifecycle engine

Shallow embedding of the core of the MediTrack client:

* `src/shared/schema.ts` — the `Medication` / `Schedule` / `Dose` data model;
* `src/client/src/lib/storage.ts` — `getDosesForDay`, `updateDose`,
  `generateDosesForSchedule`;
* `src/client/src/contexts/AppContext.tsx` — `takeDose`, `snoozeDose`,
  `refreshData`;
* `src/client/src/lib/notifications.ts` — `scheduleNotifications`;
* `src/client/src/lib/timeUtils.ts` — `getCurrentTime`, `setTimeOverride`,
  `clearTimeOverride`.

Timestamps are modelled as milliseconds-since-epoch natural numbers, with
uniform 86 400 000 ms calendar days (local timezone offset 0, no DST), so
`Date.prototype.setHours(h, m, 0, 0)` becomes "start of the day plus
`h` hours and `m` minutes" and `setDate(getDate() + 1)` becomes adding one
day in milliseconds.  Dose ids coming from `crypto.randomUUID()` are
abstracted to `""` — no verified property depends on the random id.
-/

namespace MediTrack

def msPerSec : Nat := 1000
def msPerMin : Nat := 60000
def msPerHour : Nat := 3600000
def msPerDay : Nat := 86400000

/-- `new Date(t).setHours(0, 0, 0, 0)` — midnight of the calendar day of `t`. -/
def startOfDay (t : Nat) : Nat := t / msPerDay * msPerDay

/-- `new Date(t).setHours(23, 59, 59, 999)` — last millisecond of the day of `t`. -/
def endOfDay (t : Nat) : Nat := startOfDay t + msPerDay - 1

/-- `new Date(t).setHours(h, m, 0, 0)` — the instant `h:m` on the calendar day of `t`. -/
def setTimeOfDay (t h m : Nat) : Nat := startOfDay t + h * msPerHour + m * msPerMin

/-- `new Date(t).getDay()` — weekday index 0–6; the epoch day is a Thursday (4). -/
def getDay (t : Nat) : Nat := (t / msPerDay + 4) % 7

/-- `doseSchema.status` enum from `src/shared/schema.ts`. -/
inductive DoseStatus where
  | pending
  | taken
  | missed
  | snoozed
deriving DecidableEq, Repr

/-- `scheduleSchema.frequency` enum from `src/shared/schema.ts`. -/
inductive Frequency where
  | daily
  | multiple_daily
  | specific_days
  | every_x_days
  | as_needed
deriving DecidableEq, Repr

/-- `medicationSchema` from `src/shared/schema.ts` (timestamps omitted:
the generation and lifecycle code reads only `id`, `name`, `dosage`,
`instructions`). -/
structure Medication where
  id : String
  name : String
  dosage : String
  instructions : Option String
deriving DecidableEq, Repr

/-- `scheduleSchema` from `src/shared/schema.ts`.  `times` holds the
`(hours, minutes)` pairs produced by `timeStr.split(':').map(Number)`. -/
structure Schedule where
  id : String
  medicationId : String
  frequency : Frequency
  times : List (Nat × Nat)
  specificDays : Option (List Nat)
  everyXDays : Option Nat
  startDate : Nat
  endDate : Option Nat
  active : Bool
deriving DecidableEq, Repr

/-- `doseSchema` from `src/shared/schema.ts`. -/
structure Dose where
  id : String
  medicationId : String
  scheduleId : String
  status : DoseStatus
  scheduledTime : Nat
  actualTime : Option Nat
  snoozeCount : Nat
deriving DecidableEq, Repr

/-! ## Storage (`src/client/src/lib/storage.ts`)

The IndexedDB dose store is modelled as a `List Dose`; the store's
`keyPath: 'id'` makes ids unique in any reachable store, so `updateDose`
(read by id, merge the partial record, `put`) is modelled as a map that
rewrites the entries whose id matches. -/

/-- `updateDose(id, patch)` of `storage.ts` (lines 250–261): merge `f` into the
stored dose with this id; a missing id leaves the store unchanged. -/
def updateDoseStore (db : List Dose) (doseId : String) (f : Dose → Dose) : List Dose :=
  db.map (fun d => if d.id == doseId then f d else d)

/-- Insert a dose into a list sorted by ascending `scheduledTime` (stable). -/
def insertByTime (d : Dose) : List Dose → List Dose
  | [] => [d]
  | e :: es =>
    if d.scheduledTime ≤ e.scheduledTime then d :: e :: es else e :: insertByTime d es

/-- The stable ascending sort `.sort((a, b) => a.scheduledTime - b.scheduledTime)`
used by `getDosesForDay`. -/
def sortByTime : List Dose → List Dose
  | [] => []
  | d :: ds => insertByTime d (sortByTime ds)

/-- `getDosesForDay(date)` of `storage.ts` (lines 208–222): all stored doses
whose `scheduledTime` lies between the start and the end of the day of
`date`, sorted by `scheduledTime`. -/
def getDosesForDay (db : List Dose) (date : Nat) : List Dose :=
  sortByTime (db.filter (fun d =>
    startOfDay date ≤ d.scheduledTime && d.scheduledTime ≤ endOfDay date))

/-! ## Dose generator (`generateDosesForSchedule`, `storage.ts` lines 270–343) -/

/-- The `switch (schedule.frequency)` of the generation loop deciding whether
a dose occurs on the iterated date `currentDate`.  The JavaScript truthiness
guards are kept: `specificDays` must be present, `everyXDays` must be present
and non-zero. -/
def shouldCreateDose (s : Schedule) (currentDate : Nat) : Bool :=
  match s.frequency with
  | .daily => true
  | .multiple_daily => true
  | .specific_days =>
    match s.specificDays with
    | some days => days.contains (getDay currentDate)
    | none => false
  | .every_x_days =>
    match s.everyXDays with
    | some x => x != 0 && (currentDate - s.startDate) / msPerDay % x == 0
    | none => false
  | .as_needed => false

/-- The dose record built by the generation loop for one time of day. -/
def mkDose (s : Schedule) (m : Medication) (currentDate : Nat) (tm : Nat × Nat) : Dose :=
  { id := ""
    medicationId := m.id
    scheduleId := s.id
    status := .pending
    scheduledTime := setTimeOfDay currentDate tm.1 tm.2
    actualTime := none
    snoozeCount := 0 }

/-- One iteration of the generation loop: if the schedule occurs on
`currentDate`, a dose per entry of `schedule.times`, kept only when
`scheduledTime > now`. -/
def doseTimesAt (s : Schedule) (m : Medication) (now currentDate : Nat) : List Dose :=
  if shouldCreateDose s currentDate then
    s.times.filterMap (fun tm =>
      let d := mkDose s m currentDate tm
      if now < d.scheduledTime then some d else none)
  else []

/-- The `while (currentDate <= endDate)` loop, unrolled over its iteration
count: each step handles one calendar date and then advances by one day. -/
def genFrom (s : Schedule) (m : Medication) (now : Nat) : Nat → Nat → List Dose
  | _, 0 => []
  | current, n + 1 => doseTimesAt s m now current ++ genFrom s m now (current + msPerDay) n

/-- Number of iterations of `while (currentDate <= endDate)` stepping one day
at a time from `current`. -/
def iterCount (current endD : Nat) : Nat :=
  if current ≤ endD then (endD - current) / msPerDay + 1 else 0

/-- `generateDosesForSchedule(schedule, medication)` of `storage.ts`
(lines 270–343), with `now` (the `new Date()` sampled on entry) made an
explicit parameter.  Note the loop bound: `endDate` is
`schedule.endDate ?? now + 30 days` — the explicit end date is **not**
clamped to the 30-day horizon. -/
def generateDosesForSchedule (s : Schedule) (m : Medication) (now : Nat) : List Dose :=
  let thirtyDaysFromNow := now + 30 * msPerDay
  let endD := s.endDate.getD thirtyDaysFromNow
  if !s.active || decide (s.startDate > thirtyDaysFromNow) || decide (endD < now) then []
  else
    genFrom s m now (max s.startDate now) (iterCount (max s.startDate now) endD)

/-- The storage effect of `generateDosesForSchedule`: each created dose is
`put` into the dose store individually. -/
def generateAndStore (db : List Dose) (s : Schedule) (m : Medication) (now : Nat) : List Dose :=
  db ++ generateDosesForSchedule s m now

/-! ## Application context (`src/client/src/contexts/AppContext.tsx`)

`AppProvider` keeps the `doses` React state — the enriched snapshot of
*today's* doses loaded by `refreshData` via `getDosesForDay(new Date())` —
next to the persistent dose store.  The medication join performed by
`refreshData` (`{...dose, medication}`) preserves every dose field and is
dropped from the model: `takeDose` / `snoozeDose` read only dose fields
from the snapshot. -/

structure AppState where
  db : List Dose
  doses : List Dose
deriving DecidableEq, Repr

/-- The dose-snapshot part of `refreshData` (AppContext.tsx lines 98–139). -/
def refreshDoses (db : List Dose) (now : Nat) : List Dose :=
  getDosesForDay db now

/-- `takeDose(doseId)` of AppContext.tsx (lines 141–203): resolve the id
against today's snapshot; when absent return with no effect; otherwise
`updateDose(doseId, { status: 'taken', actualTime: currentTime })` and
refresh the snapshot. -/
def takeDose (st : AppState) (doseId : String) (now : Nat) : AppState :=
  match st.doses.find? (fun d => d.id == doseId) with
  | none => st
  | some _ =>
    let db' := updateDoseStore st.db doseId
      (fun d => { d with status := .taken, actualTime := some now })
    { db := db', doses := refreshDoses db' now }

/-- `snoozeDose(doseId)` of AppContext.tsx (lines 205–299): resolve the id
against today's snapshot; when absent return with no effect; otherwise
`updateDose(doseId, { status: 'snoozed', scheduledTime: now + 10 min,
snoozeCount: (dose.snoozeCount || 0) + 1 })` — the increment reads the
snapshot's `snoozeCount` — and refresh the snapshot. -/
def snoozeDose (st : AppState) (doseId : String) (now : Nat) : AppState :=
  match st.doses.find? (fun d => d.id == doseId) with
  | none => st
  | some dose =>
    let db' := updateDoseStore st.db doseId
      (fun d => { d with
        status := .snoozed
        scheduledTime := now + 10 * msPerMin
        snoozeCount := dose.snoozeCount + 1 })
    { db := db', doses := refreshDoses db' now }

/-! ## Reminder scheduler (`src/client/src/lib/notifications.ts`) -/

/-- The dose view handed to `scheduleNotifications` by `refreshData`. -/
structure NotifDose where
  id : String
  medicationId : String
  medicationName : String
  dosage : String
  instructions : Option String
  scheduledTime : Nat
deriving DecidableEq, Repr

/-- A one-shot `setTimeout(showMedicationReminder(dose), timeDiff)` armed by
the scheduler, recorded by the dose it will fire for and its absolute fire
instant `now + timeDiff`. -/
structure ArmedTimer where
  doseId : String
  fireAt : Nat
deriving DecidableEq, Repr

/-- `scheduleNotifications(doses)` of notifications.ts (lines 105–128): when
notifications are supported and permitted, arm a timer per dose whose
`timeDiff = scheduledTime - now` is strictly positive; a dose whose
`timeDiff <= 0` falls through the `if` — nothing is armed and nothing is
fired for it. -/
def scheduleNotifications (supported permissionGranted : Bool)
    (doses : List NotifDose) (now : Nat) : List ArmedTimer :=
  if supported && permissionGranted then
    doses.filterMap (fun d =>
      if now < d.scheduledTime then some ⟨d.id, d.scheduledTime⟩ else none)
  else []

/-! ## Clock source (`src/client/src/lib/timeUtils.ts`)

`storage.ts` imports `getCurrentTime` from this module.  The module state is
the single `overrideTimeOffset` variable; real wall-clock reads
(`Date.now()`) are passed in explicitly.  Offsets are signed — an override
may lie in the past. -/

structure ClockState where
  overrideTimeOffset : Option Int
deriving DecidableEq, Repr

/-- `getCurrentTime()` of timeUtils.ts (lines 11–18): real time when no
override is set, otherwise `Date.now() + overrideTimeOffset`. -/
def getCurrentTime (st : ClockState) (realNow : Int) : Int :=
  match st.overrideTimeOffset with
  | none => realNow
  | some off => realNow + off

/-- `setTimeOverride(iso)` of timeUtils.ts (lines 24–32): store
`targetTime - Date.now()` as the offset. -/
def setTimeOverride (st : ClockState) (targetTime realNow : Int) : ClockState :=
  let _ := st
  { overrideTimeOffset := some (targetTime - realNow) }

/-- `clearTimeOverride()` of timeUtils.ts (lines 37–42). -/
def clearTimeOverride (st : ClockState) : ClockState :=
  match st.overrideTimeOffset with
  | some _ => { overrideTimeOffset := none }
  | none => st

/-! ## Helper lemmas -/

theorem msPerDay_pos : 0 < msPerDay := by norm_num [msPerDay]

theorem mem_insertByTime {d e : Dose} {l : List Dose} :
    d ∈ insertByTime e l ↔ d = e ∨ d ∈ l := by
  induction l with
  | nil => simp [insertByTime]
  | cons x xs ih =>
    simp only [insertByTime]
    split
    · simp
    · simp only [List.mem_cons, ih]
      tauto

theorem mem_sortByTime {d : Dose} {l : List Dose} : d ∈ sortByTime l ↔ d ∈ l := by
  induction l with
  | nil => simp [sortByTime]
  | cons x xs ih => simp [sortByTime, mem_insertByTime, ih]

theorem mem_doseTimesAt {s : Schedule} {m : Medication} {now c : Nat} {d : Dose} :
    d ∈ doseTimesAt s m now c ↔
      shouldCreateDose s c = true ∧
        ∃ tm, tm ∈ s.times ∧ now < (mkDose s m c tm).scheduledTime ∧ d = mkDose s m c tm := by
  unfold doseTimesAt
  split
  · next h =>
    simp only [h, List.mem_filterMap, true_and]
    constructor
    · rintro ⟨tm, htm, hsome⟩
      by_cases hlt : now < (mkDose s m c tm).scheduledTime
      · simp only [hlt, if_pos] at hsome
        exact ⟨tm, htm, hlt, (Option.some_inj.mp hsome).symm⟩
      · simp [hlt] at hsome
    · rintro ⟨tm, htm, hlt, rfl⟩
      exact ⟨tm, htm, by simp [hlt]⟩
  · next h => simp [h]

theorem mem_genFrom {s : Schedule} {m : Medication} {now : Nat} {d : Dose} :
    ∀ {n current : Nat}, d ∈ genFrom s m now current n ↔
      ∃ k, k < n ∧ d ∈ doseTimesAt s m now (current + k * msPerDay) := by
  intro n
  induction n with
  | zero => intro current; simp [genFrom]
  | succ n ih =>
    intro current
    have hstep : ∀ k : Nat, current + msPerDay + k * msPerDay = current + (k + 1) * msPerDay := by
      intro k; ring
    simp only [genFrom, List.mem_append, ih]
    constructor
    · rintro (h | ⟨k, hk, hmem⟩)
      · exact ⟨0, Nat.succ_pos n, by simpa using h⟩
      · exact ⟨k + 1, Nat.succ_lt_succ hk, by rw [← hstep]; exact hmem⟩
    · rintro ⟨k, hk, hmem⟩
      cases k with
      | zero => exact Or.inl (by simpa using hmem)
      | succ k =>
        exact Or.inr ⟨k, Nat.lt_of_succ_lt_succ hk, by rw [← hstep] at hmem; exact hmem⟩

theorem le_endD_of_lt_iterCount {current endD k : Nat} (h : k < iterCount current endD) :
    current + k * msPerDay ≤ endD := by
  unfold iterCount at h
  split at h
  · next hle =>
    have hk : k ≤ (endD - current) / msPerDay := Nat.lt_succ_iff.mp h
    have h1 : k * msPerDay ≤ (endD - current) / msPerDay * msPerDay :=
      Nat.mul_le_mul_right _ hk
    have h2 : (endD - current) / msPerDay * msPerDay ≤ endD - current :=
      Nat.div_mul_le_self _ _
    omega
  · omega

/-- Eliminate membership in the generator output down to one loop iteration. -/
theorem mem_generate_elim {s : Schedule} {m : Medication} {now : Nat} {d : Dose}
    (h : d ∈ generateDosesForSchedule s m now) :
    ∃ k, k < iterCount (max s.startDate now) (s.endDate.getD (now + 30 * msPerDay)) ∧
      d ∈ doseTimesAt s m now (max s.startDate now + k * msPerDay) := by
  simp only [generateDosesForSchedule] at h
  split at h
  · simp at h
  · exact mem_genFrom.mp h

theorem startOfDay_le_self (t : Nat) : startOfDay t ≤ t := Nat.div_mul_le_self t msPerDay

theorem startOfDay_mono {a b : Nat} (h : a ≤ b) : startOfDay a ≤ startOfDay b :=
  Nat.mul_le_mul_right _ (Nat.div_le_div_right h)

theorem startOfDay_add_mul_day (a k : Nat) :
    startOfDay (a + k * msPerDay) = startOfDay a + k * msPerDay := by
  unfold startOfDay
  rw [Nat.add_mul_div_right _ _ msPerDay_pos, Nat.add_mul]

theorem startOfDay_eq_of_between {s t : Nat} (h1 : startOfDay s ≤ t) (h2 : t ≤ endOfDay s) :
    startOfDay t = startOfDay s := by
  have h2' : t < startOfDay s + msPerDay := by
    have := msPerDay_pos
    unfold endOfDay at h2
    omega
  unfold startOfDay at *
  have hdiv : t / msPerDay = s / msPerDay := by
    have hlo : s / msPerDay * msPerDay ≤ t := h1
    have hhi : t < (s / msPerDay + 1) * msPerDay := by
      rw [Nat.add_mul, one_mul]
      omega
    have hub : t / msPerDay < s / msPerDay + 1 :=
      (Nat.div_lt_iff_lt_mul msPerDay_pos).mpr hhi
    have hlb : s / msPerDay ≤ t / msPerDay := by
      exact (Nat.le_div_iff_mul_le msPerDay_pos).mpr hlo
    omega
  rw [hdiv]

theorem setTimeOfDay_lt_next_day {t h m : Nat} (hh : h < 24) (hm : m < 60) :
    setTimeOfDay t h m < startOfDay t + msPerDay := by
  unfold setTimeOfDay
  have h1 : h * msPerHour ≤ 23 * msPerHour := Nat.mul_le_mul_right _ (by omega)
  have h2 : m * msPerMin ≤ 59 * msPerMin := Nat.mul_le_mul_right _ (by omega)
  have h3 : (23 : Nat) * msPerHour = 82800000 := by norm_num [msPerHour]
  have h4 : (59 : Nat) * msPerMin = 3540000 := by norm_num [msPerMin]
  have h5 : msPerDay = 86400000 := rfl
  omega

theorem startOfDay_le_setTimeOfDay (t h m : Nat) : startOfDay t ≤ setTimeOfDay t h m := by
  unfold setTimeOfDay
  omega

/-! ## Claim C4 -/

/-- C4: for every schedule and every generation instant `now` (the `asOf`),
every dose created by `generateDosesForSchedule` has `scheduledTime` strictly
greater than `now` — no dose already in the past is generated. -/
theorem generate_only_future_doses (s : Schedule) (m : Medication) (now : Nat)
    (d : Dose) (hd : d ∈ generateDosesForSchedule s m now) :
    now < d.scheduledTime := by
  obtain ⟨k, -, hmem⟩ := mem_generate_elim hd
  obtain ⟨-, tm, -, hlt, rfl⟩ := mem_doseTimesAt.mp hmem
  exact hlt

def c4Schedule : Schedule :=
  { id := "s4", medicationId := "m4", frequency := .daily, times := [(8, 0), (20, 0)]
    specificDays := none, everyXDays := none, startDate := 0
    endDate := some (20 * msPerHour), active := true }

def c4Med : Medication := { id := "m4", name := "Aspirin", dosage := "100mg", instructions := none }

/-- C4 witness: for the daily 08:00/20:00 schedule with `asOf` = 09:00 of
day 0, the 20:00 dose is generated (and the 08:00 one is not, being past),
and its scheduled time is strictly after `asOf`. -/
theorem generate_only_future_doses_witness :
    (⟨"", "m4", "s4", .pending, 20 * msPerHour, none, 0⟩ : Dose)
        ∈ generateDosesForSchedule c4Schedule c4Med (9 * msPerHour) ∧
      9 * msPerHour
        < (⟨"", "m4", "s4", .pending, 20 * msPerHour, none, 0⟩ : Dose).scheduledTime :=
  ⟨by decide, generate_only_future_doses c4Schedule c4Med (9 * msPerHour) _ (by decide)⟩

/-! ## Claim C9 -/

/-- C9: a schedule whose explicit `endDate` lies strictly before its
`startDate` generates no doses — `generateDosesForSchedule` terminates
normally, returns the empty list, and leaves the dose store unchanged. -/
theorem generate_empty_of_endDate_before_startDate (s : Schedule) (m : Medication)
    (db : List Dose) (now e : Nat) (he : s.endDate = some e) (hlt : e < s.startDate) :
    generateDosesForSchedule s m now = [] ∧ generateAndStore db s m now = db := by
  have hgen : generateDosesForSchedule s m now = [] := by
    simp only [generateDosesForSchedule, he, Option.getD_some]
    split
    · rfl
    · next hguard =>
      have hnow : ¬ (e < now) := by
        intro hn
        exact hguard (by simp [hn])
      have hmax : max s.startDate now = s.startDate := Nat.max_eq_left (by omega)
      have hiter : iterCount s.startDate e = 0 := by
        unfold iterCount
        rw [if_neg (by omega)]
      rw [hmax, hiter]
      rfl
  refine ⟨hgen, ?_⟩
  unfold generateAndStore
  rw [hgen, List.append_nil]

def c9Schedule : Schedule :=
  { id := "s9", medicationId := "m9", frequency := .daily, times := [(8, 0)]
    specificDays := none, everyXDays := none, startDate := msPerDay
    endDate := some 0, active := true }

def c9Med : Medication := { id := "m9", name := "Statin", dosage := "20mg", instructions := none }

/-- C9 witness: a daily schedule starting on day 1 whose end date is day 0
generates nothing and leaves a one-dose store untouched. -/
theorem generate_empty_of_endDate_before_startDate_witness :
    generateDosesForSchedule c9Schedule c9Med (12 * msPerHour) = [] ∧
      generateAndStore [⟨"x", "m9", "s9", .pending, 9 * msPerHour, none, 0⟩]
          c9Schedule c9Med (12 * msPerHour)
        = [⟨"x", "m9", "s9", .pending, 9 * msPerHour, none, 0⟩] :=
  generate_empty_of_endDate_before_startDate c9Schedule c9Med
    [⟨"x", "m9", "s9", .pending, 9 * msPerHour, none, 0⟩] (12 * msPerHour) 0 rfl (by decide)

/-! ## Claim C1 -/

def c1Schedule : Schedule :=
  { id := "s1", medicationId := "m1", frequency := .daily, times := [(8, 0)]
    specificDays := none, everyXDays := none, startDate := 31 * msPerDay
    endDate := some (31 * msPerDay), active := true }

def c1Med : Medication :=
  { id := "m1", name := "Metformin", dosage := "500mg", instructions := none }

/-- C1 counterexample: with `asOf` = day 1 and an explicit `endDate` on
day 31 (beyond `asOf + 30 days`), the generator creates a dose scheduled at
day 31, 08:00 — strictly later than `asOf + 30 days`, so the window is not
clamped to the 30-day horizon. -/
theorem generate_beyond_horizon_counterexample :
    ∃ d ∈ generateDosesForSchedule c1Schedule c1Med msPerDay,
      msPerDay + 30 * msPerDay < d.scheduledTime := by decide

/-- C1 amended: every generated dose lies inside the window
`[max(startDate, asOf), schedule.endDate ?? asOf + 30 days]`: it is strictly
after `asOf`, on or after the start of the window's first day, and on a
calendar day no later than the window's end — but an explicit `endDate` is
*not* clamped to `asOf + 30 days`, so doses beyond the 30-day horizon are
generated whenever the explicit `endDate` lies beyond it. -/
theorem generate_window_bounds (s : Schedule) (m : Medication) (now : Nat)
    (htimes : ∀ tm ∈ s.times, tm.1 < 24 ∧ tm.2 < 60) :
    ∀ d ∈ generateDosesForSchedule s m now,
      now < d.scheduledTime ∧
      startOfDay (max s.startDate now) ≤ d.scheduledTime ∧
      d.scheduledTime < startOfDay (s.endDate.getD (now + 30 * msPerDay)) + msPerDay := by
  intro d hd
  obtain ⟨k, hk, hmem⟩ := mem_generate_elim hd
  obtain ⟨-, tm, htm, hlt, rfl⟩ := mem_doseTimesAt.mp hmem
  refine ⟨hlt, ?_, ?_⟩
  · calc startOfDay (max s.startDate now)
        ≤ startOfDay (max s.startDate now + k * msPerDay) :=
          startOfDay_mono (Nat.le_add_right _ _)
      _ ≤ setTimeOfDay (max s.startDate now + k * msPerDay) tm.1 tm.2 :=
          startOfDay_le_setTimeOfDay _ _ _
  · have hend : max s.startDate now + k * msPerDay ≤ s.endDate.getD (now + 30 * msPerDay) :=
      le_endD_of_lt_iterCount hk
    have h1 : setTimeOfDay (max s.startDate now + k * msPerDay) tm.1 tm.2
        < startOfDay (max s.startDate now + k * msPerDay) + msPerDay :=
      setTimeOfDay_lt_next_day (htimes tm htm).1 (htimes tm htm).2
    have h2 : startOfDay (max s.startDate now + k * msPerDay)
        ≤ startOfDay (s.endDate.getD (now + 30 * msPerDay)) := startOfDay_mono hend
    show setTimeOfDay (max s.startDate now + k * msPerDay) tm.1 tm.2 < _
    omega

/-- C1 amended witness: the day-31 dose of the counterexample schedule obeys
the uncapped window bounds. -/
theorem generate_window_bounds_witness :
    msPerDay < (⟨"", "m1", "s1", .pending, 31 * msPerDay + 8 * msPerHour, none, 0⟩ : Dose).scheduledTime ∧
      startOfDay (max c1Schedule.startDate msPerDay)
        ≤ (⟨"", "m1", "s1", .pending, 31 * msPerDay + 8 * msPerHour, none, 0⟩ : Dose).scheduledTime ∧
      (⟨"", "m1", "s1", .pending, 31 * msPerDay + 8 * msPerHour, none, 0⟩ : Dose).scheduledTime
        < startOfDay (c1Schedule.endDate.getD (msPerDay + 30 * msPerDay)) + msPerDay :=
  generate_window_bounds c1Schedule c1Med msPerDay (by decide) _ (by decide)

/-! ## Claim C5 -/

def c5Schedule : Schedule :=
  { id := "s5", medicationId := "m5", frequency := .every_x_days, times := [(8, 0)]
    specificDays := none, everyXDays := some 3, startDate := 12 * msPerHour
    endDate := some (7 * msPerDay + 8 * msPerHour), active := true }

def c5Med : Medication :=
  { id := "m5", name := "Lisinopril", dosage := "10mg", instructions := none }

/-- C5 counterexample: `startDate` D = day 0 at 12:00, X = 3, `asOf` = day 5
at 08:00.  The generator walks days from `asOf` and tests
`floor((date - D) in whole days) mod 3`, which first vanishes on calendar
day 7 — a dose is created on day 7, which is not of the form D + 3k days, so
the occurrence dates are not `{D, D+3, D+6, ...}`. -/
theorem every_x_days_misaligned_counterexample :
    ∃ d ∈ generateDosesForSchedule c5Schedule c5Med (5 * msPerDay + 8 * msPerHour),
      ∀ k : Nat,
        startOfDay d.scheduledTime ≠ startOfDay c5Schedule.startDate + k * (3 * msPerDay) := by
  refine ⟨⟨"", "m5", "s5", .pending, 7 * msPerDay + 8 * msPerHour, none, 0⟩, by decide, ?_⟩
  intro k h
  simp only [c5Schedule, startOfDay, msPerDay, msPerHour] at h
  omega

/-- C5 amended: the generator tests exactly
`floor((date - startDate) in whole days) mod X == 0` on the dates it walks,
and `startDate` satisfies the test (offset 0); but the walk starts at
`max(startDate, asOf)`, so the occurrence dates are guaranteed to be
`{D, D+X, D+2X, ...}` only when `asOf ≤ startDate` (the walk then starts at
`D` itself): under that hypothesis every generated dose falls on a calendar
day `D + jX` days, and an iterated day `D + j` days passes the occurrence
test exactly when `X` divides `j`. -/
theorem every_x_days_occurrence (s : Schedule) (m : Medication) (now X : Nat)
    (hf : s.frequency = Frequency.every_x_days)
    (hX : s.everyXDays = some X) (hXpos : 0 < X)
    (hnow : now ≤ s.startDate) :
    (∀ d ∈ generateDosesForSchedule s m now,
        ∃ j tm, X ∣ j ∧ tm ∈ s.times ∧
          d.scheduledTime
            = startOfDay s.startDate + j * msPerDay + tm.1 * msPerHour + tm.2 * msPerMin) ∧
    (∀ j : Nat, shouldCreateDose s (s.startDate + j * msPerDay) = true ↔ j % X = 0) := by
  have hdiv : ∀ j : Nat, (s.startDate + j * msPerDay - s.startDate) / msPerDay = j := by
    intro j
    rw [Nat.add_sub_cancel_left, Nat.mul_div_cancel _ msPerDay_pos]
  have hshould : ∀ j : Nat, shouldCreateDose s (s.startDate + j * msPerDay) = true ↔ j % X = 0 := by
    intro j
    unfold shouldCreateDose
    rw [hf, hX]
    simp only [Bool.and_eq_true, bne_iff_ne, ne_eq, beq_iff_eq, hdiv j]
    constructor
    · rintro ⟨-, h⟩
      exact h
    · intro h
      exact ⟨by omega, h⟩
  refine ⟨?_, hshould⟩
  intro d hd
  obtain ⟨k, hk, hmem⟩ := mem_generate_elim hd
  have hmax : max s.startDate now = s.startDate := Nat.max_eq_left hnow
  rw [hmax] at hmem
  obtain ⟨hsh, tm, htm, hlt, rfl⟩ := mem_doseTimesAt.mp hmem
  have hmod : k % X = 0 := (hshould k).mp hsh
  refine ⟨k, tm, Nat.dvd_of_mod_eq_zero hmod, htm, ?_⟩
  show setTimeOfDay (s.startDate + k * msPerDay) tm.1 tm.2 = _
  unfold setTimeOfDay
  rw [startOfDay_add_mul_day]

def w5Schedule : Schedule :=
  { id := "s5w", medicationId := "m5w", frequency := .every_x_days, times := [(8, 0)]
    specificDays := none, everyXDays := some 3, startDate := 0
    endDate := some (3 * msPerDay + 9 * msPerHour), active := true }

def w5Med : Medication :=
  { id := "m5w", name := "Warfarin", dosage := "5mg", instructions := none }

/-- C5 amended witness: for an aligned every-3-days schedule starting at
day 0 with `asOf = 0`, the generated day-3 dose falls on a day `3k` after
the start. -/
theorem every_x_days_occurrence_witness :
    ∃ j tm, 3 ∣ j ∧ tm ∈ w5Schedule.times ∧
      (⟨"", "m5w", "s5w", .pending, 3 * msPerDay + 8 * msPerHour, none, 0⟩ : Dose).scheduledTime
        = startOfDay w5Schedule.startDate + j * msPerDay + tm.1 * msPerHour + tm.2 * msPerMin :=
  (every_x_days_occurrence w5Schedule w5Med 0 3 rfl rfl (by decide) (by decide)).1
    _ (by decide)

/-! ## Claim C8 -/

/-- C8: after `setTimeOverride` pins target instant `t` at real instant `s`,
a `getCurrentTime` read at any later real instant `r` returns `t + (r - s)`:
the overridden clock keeps advancing at real speed instead of freezing at
`t`; and after `clearTimeOverride` the clock reads real wall-clock time
again. -/
theorem clock_override_advances (st st' : ClockState) (t s r : Int) :
    getCurrentTime (setTimeOverride st t s) r = t + (r - s) ∧
      getCurrentTime (clearTimeOverride st') r = r := by
  constructor
  · show r + (t - s) = t + (r - s)
    ring
  · unfold clearTimeOverride
    cases h : st'.overrideTimeOffset with
    | none => simp [getCurrentTime, h]
    | some off => simp [getCurrentTime]

/-! ## Claim C2 -/

def c2Dose : Dose :=
  { id := "a", medicationId := "m", scheduleId := "s", status := .pending
    scheduledTime := 10 * msPerHour, actualTime := none, snoozeCount := 0 }

def c2State : AppState := { db := [c2Dose], doses := [c2Dose] }

/-- C2 counterexample: confirming the same dose twice is not a no-op — the
first `takeDose` at 09:00 stores `actualTime = 09:00`, and a second
`takeDose` one minute later overwrites `actualTime` with 09:01 (the status
does stay `taken`). -/
theorem takeDose_overwrites_actualTime_counterexample :
    ((takeDose c2State "a" (9 * msPerHour)).db.map Dose.actualTime
        = [some (9 * msPerHour)]) ∧
      ((takeDose (takeDose c2State "a" (9 * msPerHour)) "a" (9 * msPerHour + msPerMin)).db.map
            Dose.actualTime
        = [some (9 * msPerHour + msPerMin)]) ∧
      ((takeDose (takeDose c2State "a" (9 * msPerHour)) "a" (9 * msPerHour + msPerMin)).db.map
            Dose.status
        = [DoseStatus.taken]) ∧
      9 * msPerHour ≠ 9 * msPerHour + msPerMin := by decide

/-- C2 amended: `takeDose` on any dose id resolved from today's snapshot (in
particular a `pending` or `snoozed` dose) stores the dose with
`status = taken` and `actualTime` equal to the call time; a repeated call
keeps `status = taken` but overwrites `actualTime` with the later call's
time — the operation is idempotent on `status` only, not on `actualTime`. -/
theorem takeDose_sets_taken_and_call_time (st : AppState) (doseId : String) (now : Nat)
    (hfound : (st.doses.find? (fun x => x.id == doseId)).isSome = true) :
    ∀ d ∈ (takeDose st doseId now).db, d.id = doseId →
      d.status = DoseStatus.taken ∧ d.actualTime = some now := by
  obtain ⟨d0, hd0⟩ := Option.isSome_iff_exists.mp hfound
  unfold takeDose
  rw [hd0]
  intro d hd hid
  rcases List.mem_map.mp hd with ⟨e, he, rfl⟩
  by_cases hbe : (e.id == doseId) = true
  · simp [hbe]
  · exfalso
    simp only [hbe, if_neg, Bool.false_eq_true, reduceIte] at hid
    exact hbe (by simp [hid])

/-- C2 amended witness: the stored dose after the second confirm of the
counterexample state is `taken` and carries the second call's time. -/
theorem takeDose_sets_taken_and_call_time_witness :
    (⟨"a", "m", "s", .taken, 10 * msPerHour, some (9 * msPerHour + msPerMin), 0⟩ : Dose).status
        = DoseStatus.taken ∧
      (⟨"a", "m", "s", .taken, 10 * msPerHour, some (9 * msPerHour + msPerMin), 0⟩ : Dose).actualTime
        = some (9 * msPerHour + msPerMin) :=
  takeDose_sets_taken_and_call_time (takeDose c2State "a" (9 * msPerHour)) "a"
    (9 * msPerHour + msPerMin) (by decide)
    ⟨"a", "m", "s", .taken, 10 * msPerHour, some (9 * msPerHour + msPerMin), 0⟩
    (by decide) (by decide)

/-! ## Claim C3 -/

/-- C3: snoozing a `pending` dose resolved from today's snapshot stores it
back with `status = snoozed`, `scheduledTime` equal to the call time plus
10 minutes exactly (well within the ±1 s tolerance), `snoozeCount`
incremented by exactly one, and every other field unchanged (the conclusion
is a record update of the original dose touching only those three fields). -/
theorem snoozeDose_pending_spec (st : AppState) (doseId : String) (d : Dose) (now : Nat)
    (hfind : st.doses.find? (fun x => x.id == doseId) = some d)
    (_hstatus : d.status = DoseStatus.pending)
    (hdb : d ∈ st.db) :
    { d with status := .snoozed
             scheduledTime := now + 10 * msPerMin
             snoozeCount := d.snoozeCount + 1 } ∈ (snoozeDose st doseId now).db := by
  have hid : (d.id == doseId) = true := by
    have h := List.find?_some hfind
    simpa using h
  unfold snoozeDose
  rw [hfind]
  show _ ∈ updateDoseStore st.db doseId _
  unfold updateDoseStore
  exact List.mem_map.mpr ⟨d, hdb, by rw [if_pos hid]⟩

def c3Dose : Dose :=
  { id := "a3", medicationId := "m3", scheduleId := "s3", status := .pending
    scheduledTime := 10 * msPerHour, actualTime := none, snoozeCount := 0 }

def c3State : AppState := { db := [c3Dose], doses := [c3Dose] }

/-- C3 witness: snoozing the pending 10:00 dose at 09:00 stores it snoozed at
09:10 with `snoozeCount` 1 and all other fields intact. -/
theorem snoozeDose_pending_spec_witness :
    { c3Dose with status := .snoozed
                  scheduledTime := 9 * msPerHour + 10 * msPerMin
                  snoozeCount := c3Dose.snoozeCount + 1 }
      ∈ (snoozeDose c3State "a3" (9 * msPerHour)).db :=
  snoozeDose_pending_spec c3State "a3" c3Dose (9 * msPerHour) (by decide) (by decide) (by decide)

/-! ## Claim C7 -/

/-- C7: `takeDose` and `snoozeDose` on a dose id that matches no stored dose
and no dose of today's snapshot are no-ops: the whole application state —
dose store included — is returned unchanged, and being total functions they
throw nothing. -/
theorem lifecycle_not_found_noop (st : AppState) (doseId : String) (now : Nat)
    (_hdb : ∀ d ∈ st.db, d.id ≠ doseId) (hds : ∀ d ∈ st.doses, d.id ≠ doseId) :
    takeDose st doseId now = st ∧ snoozeDose st doseId now = st := by
  have hfind : st.doses.find? (fun x => x.id == doseId) = none := by
    apply List.find?_eq_none.mpr
    intro x hx
    simp [hds x hx]
  constructor
  · unfold takeDose
    rw [hfind]
  · unfold snoozeDose
    rw [hfind]

/-- C7 witness: operating on the unknown id `"zzz"` leaves a one-dose state
unchanged. -/
theorem lifecycle_not_found_noop_witness :
    takeDose c3State "zzz" (9 * msPerHour) = c3State ∧
      snoozeDose c3State "zzz" (9 * msPerHour) = c3State :=
  lifecycle_not_found_noop c3State "zzz" (9 * msPerHour) (by decide) (by decide)

/-! ## Claim C10 -/

/-- C10: the lifecycle operations resolve ids only against today's snapshot
(`refreshData` loads `getDosesForDay(new Date())`).  A dose that exists in
the store but is scheduled on a different calendar day than `now` is
invisible to both `takeDose` and `snoozeDose`: with a snapshot in sync with
the store, both are not-found no-ops and the whole state — the stored dose
included — is unchanged.  The effective precondition is "dose exists and is
scheduled today". -/
theorem lifecycle_requires_today (st : AppState) (d : Dose) (now : Nat)
    (hsync : st.doses = getDosesForDay st.db now)
    (hd : d ∈ st.db)
    (hday : startOfDay d.scheduledTime ≠ startOfDay now)
    (huniq : ∀ d' ∈ st.db, d'.id = d.id → d' = d) :
    takeDose st d.id now = st ∧ snoozeDose st d.id now = st := by
  have hfind : st.doses.find? (fun x => x.id == d.id) = none := by
    apply List.find?_eq_none.mpr
    intro x hx
    rw [hsync] at hx
    unfold getDosesForDay at hx
    rw [mem_sortByTime] at hx
    have hxdb : x ∈ st.db := List.mem_of_mem_filter hx
    have hbounds := List.of_mem_filter hx
    simp only [Bool.and_eq_true, decide_eq_true_eq] at hbounds
    intro hbeq
    have hxid : x.id = d.id := by simpa using hbeq
    have hxd : x = d := huniq x hxdb hxid
    subst hxd
    exact hday (startOfDay_eq_of_between hbounds.1 hbounds.2)
  constructor
  · unfold takeDose
    rw [hfind]
  · unfold snoozeDose
    rw [hfind]

def c10Dose : Dose :=
  { id := "a10", medicationId := "m10", scheduleId := "s10", status := .pending
    scheduledTime := msPerDay + 10 * msPerHour, actualTime := none, snoozeCount := 0 }

def c10State : AppState := { db := [c10Dose], doses := [] }

/-- C10 witness: a pending dose stored for tomorrow 10:00 is untouchable at
today 09:00 — both operations return the state unchanged. -/
theorem lifecycle_requires_today_witness :
    takeDose c10State c10Dose.id (9 * msPerHour) = c10State ∧
      snoozeDose c10State c10Dose.id (9 * msPerHour) = c10State :=
  lifecycle_requires_today c10State c10Dose (9 * msPerHour)
    (by decide) (by decide) (by decide) (by decide)

/-! ## Claim C6 -/

/-- C6 counterexample: a pending dose already due (`scheduledTime` five
minutes before `now`, so `timeDiff <= 0`) handed to `scheduleNotifications`
with notification support and permission granted produces nothing — no timer
is armed and nothing fires, so the due reminder is silently lost by the
scheduler. -/
theorem due_reminder_dropped_counterexample :
    scheduleNotifications true true
        [{ id := "d6", medicationId := "m6", medicationName := "Aspirin", dosage := "100mg",
           instructions := none, scheduledTime := 5 * msPerMin }] (10 * msPerMin)
      = [] := by decide

/-- C6 amended: `scheduleNotifications` arms one-shot timers only for doses
whose `scheduledTime` is strictly in the future — every armed timer fires
strictly after `now`, and when every handed dose is already due the
scheduler arms nothing at all: due reminders are dropped (skipped without
firing or surfacing), not fired immediately. -/
theorem scheduleNotifications_drops_due (supported permissionGranted : Bool)
    (doses : List NotifDose) (now : Nat) :
    (∀ t ∈ scheduleNotifications supported permissionGranted doses now, now < t.fireAt) ∧
      ((∀ d ∈ doses, d.scheduledTime ≤ now) →
        scheduleNotifications supported permissionGranted doses now = []) := by
  constructor
  · intro t ht
    unfold scheduleNotifications at ht
    split at ht
    · rcases List.mem_filterMap.mp ht with ⟨d, -, hsome⟩
      by_cases hlt : now < d.scheduledTime
      · rw [if_pos hlt] at hsome
        cases hsome
        exact hlt
      · rw [if_neg hlt] at hsome
        cases hsome
    · simp at ht
  · intro hall
    unfold scheduleNotifications
    split
    · apply List.filterMap_eq_nil_iff.mpr
      intro d hd
      rw [if_neg (by exact Nat.not_lt.mpr (hall d hd))]
    · rfl

/-- C6 amended witness: two already-due doses yield an empty timer set. -/
theorem scheduleNotifications_drops_due_witness :
    scheduleNotifications true true
        [{ id := "w6a", medicationId := "m", medicationName := "Med", dosage := "1mg",
           instructions := none, scheduledTime := 3 },
         { id := "w6b", medicationId := "m", medicationName := "Med", dosage := "1mg",
           instructions := none, scheduledTime := 7 }] 7
      = [] :=
  (scheduleNotifications_drops_due true true
      [{ id := "w6a", medicationId := "m", medicationName := "Med", dosage := "1mg",
         instructions := none, scheduledTime := 3 },
       { id := "w6b", medicationId := "m", medicationName := "Med", dosage := "1mg",
         instructions := none, scheduledTime := 7 }] 7).2 (by decide)

end MediTrack
